import Mathlib

/-!
Verification of the KOINOS catalog-browsing repository.

Frontend: `src/frontend/src/components/VirtualizedItemList.js` is embedded as a
pure function from the component's props to the element tree it returns
(container style plus one row record per item), with JS exceptions modelled by
`Except`.  Backend components (Query Engine, Stats Cache) are not present under
the repository sources, only their spec; they are modelled from the spec where
a claim needs them.
-/

/-- An item as consumed by the frontend component and the backend.  `price` is
`Option ℚ`: `some p` models a JS number, `none` models an absent/null `price`
field (on which `toLocaleString()` would throw). -/
structure Item where
  id : Nat
  name : String
  category : String
  price : Option Rat
  deriving Repr, DecidableEq

/-- Style of the outer `div` of `VirtualizedItemList` (source lines 6-12).
The source object literal sets `maxHeight: height` and `overflow: 'auto'` and
sets no `height` property; `heightProp = none` records that absence. -/
structure ContainerStyle where
  backgroundColor : String
  border : String
  borderRadius : String
  maxHeight : Nat
  heightProp : Option Nat
  overflow : String
  deriving Repr, DecidableEq

/-- One rendered row (source lines 13-45): the `div` keyed by `item.id` with
its inline style, containing a `Link` to `'/items/' + item.id` that displays
the item's `name`, `category` and `$` + `price.toLocaleString()`.  `price`
holds the numeric value whose locale string the price cell shows. -/
structure Row where
  key : Nat
  heightPx : Nat
  borderBottom : String
  linkTo : String
  nameText : String
  categoryText : String
  price : Rat
  deriving Repr, DecidableEq

/-- The element tree returned by the component. -/
structure Rendered where
  containerStyle : ContainerStyle
  rows : List Row
  deriving Repr, DecidableEq

/-- Rendering of one row of the `items.map` callback (source lines 13-45).
`count` is `items.length`, `idx` the map index.  `item.price.toLocaleString()`
(line 42) throws a `TypeError` when `price` is absent or null, modelled by the
`none` branch. -/
def renderRow (count : Nat) (idx : Nat) (item : Item) : Except String Row :=
  match item.price with
  | none => Except.error "TypeError: cannot read toLocaleString of undefined"
  | some p =>
      Except.ok
        { key := item.id
          heightPx := 70
          borderBottom := if idx < count - 1 then "1px solid #e0e0e0" else "none"
          linkTo := "/items/" ++ toString item.id
          nameText := item.name
          categoryText := item.category
          price := p }

/-- `items.map` over the row callback: rows are produced in array order and the
first throwing element aborts the whole render, as in JS. -/
def renderRows (count : Nat) (idx : Nat) : List Item → Except String (List Row)
  | [] => Except.ok []
  | item :: rest =>
      match renderRow count idx item with
      | Except.error e => Except.error e
      | Except.ok r =>
          match renderRows count (idx + 1) rest with
          | Except.error e => Except.error e
          | Except.ok rs => Except.ok (r :: rs)

/-- The style object literal of the outer `div` (source lines 6-12). -/
def containerStyleOf (height : Nat) : ContainerStyle :=
  { backgroundColor := "white"
    border := "1px solid #e0e0e0"
    borderRadius := "4px"
    maxHeight := height
    heightProp := none
    overflow := "auto" }

/-- The component `VirtualizedItemList` (source lines 4-49): props are `items`
and `height` (default `600`); it returns the outer scrollable `div` holding one
row per item. -/
def VirtualizedItemList (items : List Item) (height : Nat := 600) :
    Except String Rendered :=
  match renderRows items.length 0 items with
  | Except.error e => Except.error e
  | Except.ok rows =>
      Except.ok { containerStyle := containerStyleOf height, rows := rows }

/-- The row `renderRow` produces when the price is present: used to state what
a successful render contains. -/
def rowSpec (count : Nat) (idx : Nat) (item : Item) : Row :=
  { key := item.id
    heightPx := 70
    borderBottom := if idx < count - 1 then "1px solid #e0e0e0" else "none"
    linkTo := "/items/" ++ toString item.id
    nameText := item.name
    categoryText := item.category
    price := item.price.getD 0 }

/-- The row list a successful render contains. -/
def rowsSpec (count : Nat) (idx : Nat) : List Item → List Row
  | [] => []
  | item :: rest => rowSpec count idx item :: rowsSpec count (idx + 1) rest

/-- Modelled from CSS semantics (not from the repository): the used height of a
block whose style sets `max-height` but no `height` is the content height
clipped to `max-height`; with an explicit `height` it is that height clipped to
`max-height`.  Row boxes are `70px` tall plus `1px` of bottom border when one
is set (content-box sizing, the source default). -/
def contentHeight (rows : List Row) : Nat :=
  (rows.map fun r => r.heightPx + (if r.borderBottom = "none" then 0 else 1)).sum

/-- Used (computed) height of the rendered container, from CSS `max-height`
semantics. -/
def renderedHeight (r : Rendered) : Nat :=
  match r.containerStyle.heightProp with
  | some h => min h r.containerStyle.maxHeight
  | none => min (contentHeight r.rows) r.containerStyle.maxHeight

lemma renderRows_ok_of_isSome (count idx : Nat) (items : List Item)
    (h : ∀ it ∈ items, it.price.isSome) :
    renderRows count idx items = Except.ok (rowsSpec count idx items) := by
  induction items generalizing idx with
  | nil => rfl
  | cons a t ih =>
      have ha : a.price.isSome := h a (List.mem_cons_self a t)
      obtain ⟨p, hp⟩ := Option.isSome_iff_exists.mp ha
      have ht : ∀ it ∈ t, it.price.isSome := fun it hit => h it (List.mem_cons_of_mem a hit)
      simp [renderRows, renderRow, rowsSpec, rowSpec, hp, ih (idx + 1) ht]

lemma renderRows_ok_inv (count idx : Nat) (items : List Item) (rows : List Row)
    (h : renderRows count idx items = Except.ok rows) :
    rows = rowsSpec count idx items ∧ ∀ it ∈ items, it.price.isSome := by
  induction items generalizing idx rows with
  | nil =>
      simp [renderRows] at h
      simp [rowsSpec, ← h]
  | cons a t ih =>
      rcases hp : a.price with _ | p
      · simp [renderRows, renderRow, hp] at h
      · rcases hrec : renderRows count (idx + 1) t with e | rs
        · simp [renderRows, renderRow, hp, hrec] at h
        · have := ih (idx + 1) rs hrec
          simp [renderRows, renderRow, hp, hrec] at h
          subst h
          refine ⟨by simp [rowsSpec, rowSpec, hp, this.1], ?_⟩
          intro it hit
          rcases List.mem_cons.mp hit with h1 | h2
          · subst h1; simp [hp]
          · exact this.2 it h2

lemma rowsSpec_length (count idx : Nat) (items : List Item) :
    (rowsSpec count idx items).length = items.length := by
  induction items generalizing idx with
  | nil => rfl
  | cons a t ih => simp [rowsSpec, ih]

lemma rowsSpec_get? (count idx : Nat) (items : List Item) (j : Nat) :
    (rowsSpec count idx items).get? j = (items.get? j).map (fun it => rowSpec count (idx + j) it) := by
  induction items generalizing idx j with
  | nil => simp [rowsSpec]
  | cons a t ih =>
      cases j with
      | zero => simp [rowsSpec]
      | succ n =>
          simp only [rowsSpec, List.get?_cons_succ, ih (idx + 1) n]
          rw [show idx + 1 + n = idx + (n + 1) by omega]

lemma rowsSpec_heightPx (count idx : Nat) (items : List Item) :
    ∀ r ∈ rowsSpec count idx items, r.heightPx = 70 := by
  induction items generalizing idx with
  | nil => simp [rowsSpec]
  | cons a t ih =>
      intro r hr
      rcases List.mem_cons.mp hr with h1 | h2
      · subst h1; rfl
      · exact ih (idx + 1) r h2

lemma rowsSpec_keys (count idx : Nat) (items : List Item) :
    (rowsSpec count idx items).map Row.key = items.map Item.id := by
  induction items generalizing idx with
  | nil => rfl
  | cons a t ih => simp [rowsSpec, rowSpec, ih]

lemma VirtualizedItemList_ok_inv (items : List Item) (height : Nat) (r : Rendered)
    (h : VirtualizedItemList items height = Except.ok r) :
    r.rows = rowsSpec items.length 0 items ∧
      r.containerStyle = containerStyleOf height ∧
      ∀ it ∈ items, it.price.isSome := by
  rcases hrows : renderRows items.length 0 items with e | rows
  · simp [VirtualizedItemList, hrows] at h
  · have hinv := renderRows_ok_inv items.length 0 items rows hrows
    simp [VirtualizedItemList, hrows] at h
    subst h
    exact ⟨hinv.1, rfl, hinv.2⟩

example : VirtualizedItemList [⟨1, "a", "b", some 5⟩] 600 =
    Except.ok ⟨containerStyleOf 600, [⟨1, 70, "none", "/items/1", "a", "b", 5⟩]⟩ := by
  rfl

/-- Does the character list `h` start with `n`? (executable substring helper). -/
def subStart : List Char → List Char → Bool
  | [], _ => true
  | _ :: _, [] => false
  | a :: as, b :: bs => (a == b) && subStart as bs

/-- Does `n` occur contiguously inside `h`? (executable substring helper). -/
def subIn (n : List Char) : List Char → Bool
  | [] => n.isEmpty
  | b :: bs => subStart n (b :: bs) || subIn n bs

/-- Lowercased characters of a string (case-insensitive comparison key). -/
def lowerChars (s : String) : List Char :=
  s.data.map Char.toLower

/-- Characters of a string with leading and trailing whitespace removed. -/
def trimChars (s : String) : List Char :=
  ((s.data.dropWhile Char.isWhitespace).reverse.dropWhile Char.isWhitespace).reverse

/-- Modelled from the spec: the Query Engine's match predicate (the backend
route code is not in the repository sources).  An item matches the trimmed
search text `q` when its `name` OR `category` contains `q` as a
case-insensitive substring. -/
def itemMatches (q : List Char) (it : Item) : Bool :=
  subIn (q.map Char.toLower) (lowerChars it.name) ||
    subIn (q.map Char.toLower) (lowerChars it.category)

/-- Modelled from the spec: the Query Engine's filtering stage.  A present
search that is non-empty after trimming keeps the matching items; an absent or
blank search passes the collection unchanged. -/
def filterItems (search : Option String) (c : List Item) : List Item :=
  let q := trimChars (search.getD "")
  if q.isEmpty then c else c.filter (itemMatches q)

/-- Query parameters: optional search text, `page ≥ 1` (default 1), `limit ≥ 1`
(default 10). -/
structure QueryParams where
  search : Option String := none
  page : Nat := 1
  limit : Nat := 10
  deriving Repr, DecidableEq

/-- Result of one Query Engine call. -/
structure QueryResult where
  items : List Item
  total : Nat
  page : Nat
  limit : Nat
  deriving Repr, DecidableEq

/-- Modelled from the spec: the Query Engine (backend code not in the
repository sources).  Filter, count the filtered sequence as `total`, then
slice starting at `(page - 1) * limit` with length `limit`. -/
def queryEngine (c : List Item) (p : QueryParams) : QueryResult :=
  let filtered := filterItems p.search c
  { items := (filtered.drop ((p.page - 1) * p.limit)).take p.limit
    total := filtered.length
    page := p.page
    limit := p.limit }

/-- Case-insensitive substring containment, stated structurally: the lowercase
characters of `needle` occur contiguously inside the lowercase characters of
`hay`. -/
def containsCI (hay : String) (needle : List Char) : Prop :=
  ∃ l r, lowerChars hay = l ++ needle.map Char.toLower ++ r

lemma subStart_iff (n : List Char) : ∀ h : List Char,
    (subStart n h = true ↔ ∃ r, h = n ++ r) := by
  induction n with
  | nil => intro h; simp [subStart]
  | cons a as ih =>
      intro h
      cases h with
      | nil =>
          simp only [subStart, List.cons_append]
          constructor
          · intro hfalse; cases hfalse
          · rintro ⟨r, hr⟩; cases hr
      | cons b bs =>
          simp only [subStart, Bool.and_eq_true, beq_iff_eq, ih bs,
            List.cons_append, List.cons.injEq]
          constructor
          · rintro ⟨hab, r, hr⟩
            exact ⟨r, hab.symm, hr⟩
          · rintro ⟨r, hba, hr⟩
            exact ⟨hba.symm, r, hr⟩

lemma subIn_iff (n : List Char) : ∀ h : List Char,
    (subIn n h = true ↔ ∃ l r, h = l ++ n ++ r) := by
  intro h
  induction h with
  | nil =>
      constructor
      · intro hn
        have hempty : n = [] := by
          cases n with
          | nil => rfl
          | cons c cs => simp [subIn] at hn
        exact ⟨[], [], by simp [hempty]⟩
      · rintro ⟨l, r, hr⟩
        have hlen := congrArg List.length hr
        simp [List.length_append] at hlen
        have hempty : n = [] := List.length_eq_zero.mp (by omega)
        subst hempty
        simp [subIn]
  | cons b bs ih =>
      simp only [subIn, Bool.or_eq_true, subStart_iff, ih]
      constructor
      · rintro (⟨r, hr⟩ | ⟨l, r, hr⟩)
        · exact ⟨[], r, by simpa using hr⟩
        · exact ⟨b :: l, r, by simp [hr]⟩
      · rintro ⟨l, r, hr⟩
        cases l with
        | nil => exact Or.inl ⟨r, by simpa using hr⟩
        | cons x xs =>
            simp only [List.cons_append, List.cons.injEq] at hr
            exact Or.inr ⟨xs, r, hr.2⟩

lemma itemMatches_iff (q : List Char) (it : Item) :
    itemMatches q it = true ↔ containsCI it.name q ∨ containsCI it.category q := by
  simp only [itemMatches, Bool.or_eq_true, subIn_iff, containsCI]

/-- Statistics aggregate `{count, averagePrice}`. -/
structure Stats where
  count : Nat
  averagePrice : Rat
  deriving Repr, DecidableEq

/-- Modelled from the spec: compute `{count, averagePrice}` over the full
collection; the average of 0 items is `0`.  Persisted items carry a numeric
price, so `getD 0` never fires on spec-conforming stores. -/
def computeStats (items : List Item) : Stats :=
  { count := items.length
    averagePrice :=
      if items.length = 0 then 0
      else (items.map fun it => it.price.getD 0).sum / items.length }

/-- The Item Store's observable state for the Stats Cache: the collection and
the store file's modification timestamp. -/
structure Store where
  items : List Item
  mtime : Nat
  deriving Repr, DecidableEq

/-- Stats Cache state: `none` is `Empty`; `some (value, observedTimestamp)` is
`Valid` for the recorded timestamp (conceptually `Stale` once the file's
timestamp differs). -/
structure CacheState where
  cached : Option (Stats × Nat)
  deriving Repr, DecidableEq

/-- One `getStats()` call's outcome: the returned value, the cache state
afterwards, and how many Item Store `list()` reads the call performed. -/
structure StatsResult where
  value : Stats
  state : CacheState
  listCalls : Nat
  deriving Repr, DecidableEq

/-- Modelled from the spec: `getStats()` (backend stats route not in the
repository sources).  While `Valid` with an unchanged file timestamp the
cached value is returned with no storage read; otherwise the collection is
read once, the aggregate recomputed and cached with the current timestamp. -/
def getStats (store : Store) (st : CacheState) : StatsResult :=
  match st.cached with
  | some (v, ts) =>
      if store.mtime = ts then ⟨v, st, 0⟩
      else
        let v2 := computeStats store.items
        ⟨v2, ⟨some (v2, store.mtime)⟩, 1⟩
  | none =>
      let v2 := computeStats store.items
      ⟨v2, ⟨some (v2, store.mtime)⟩, 1⟩

example : filterItems (some "Tool")
    [⟨1, "power tool", "Hardware", some 1⟩, ⟨2, "Drill", "Tools", some 2⟩] =
    [⟨1, "power tool", "Hardware", some 1⟩, ⟨2, "Drill", "Tools", some 2⟩] := by
  decide

example : (queryEngine [⟨1, "a", "b", some 1⟩, ⟨2, "c", "d", some 2⟩]
    ⟨none, 2, 1⟩).items = [⟨2, "c", "d", some 2⟩] := by
  decide

/-- A concrete item with a numeric price. -/
def itemWidget : Item := ⟨1, "Widget", "Tools", some 5⟩

/-- The row `VirtualizedItemList` renders for `itemWidget` alone. -/
def rowWidget : Row := ⟨1, 70, "none", "/items/1", "Widget", "Tools", 5⟩

/-- The element tree `VirtualizedItemList [itemWidget] 600` returns. -/
def renderedWidget : Rendered := ⟨containerStyleOf 600, [rowWidget]⟩

/-- An item whose name matches the search "Tool" case-insensitively. -/
def itemPower : Item := ⟨1, "power tool", "Hardware", some 1⟩

/-- An item whose category matches the search "Tool". -/
def itemDrill : Item := ⟨2, "Drill", "Tools", some 2⟩

/-- C1 as stated is false on the code: the outer container's style sets
`maxHeight` (source line 10), not `height`.  With one item and `height = 600`
the container's used height is 70, not 600, and no `height` style property is
set at all. -/
theorem C1_fixed_height_counterexample :
    (VirtualizedItemList [itemWidget] 600).map renderedHeight = Except.ok 70 ∧
    (VirtualizedItemList [itemWidget] 600).map (fun r => r.containerStyle.heightProp) =
      Except.ok none ∧
    (70 : Nat) ≠ 600 :=
  ⟨rfl, rfl, by decide⟩

/-- C1 (amended): for every items array and supplied height `H` (default 600),
the outer container rendered by `VirtualizedItemList` has `maxHeight` exactly
`H` with scrolling overflow and no fixed `height` property, so its used height
is at most `H`, independent of how many items the array holds. -/
theorem C1_container_clipped (items : List Item) (height : Nat) (r : Rendered)
    (h : VirtualizedItemList items height = Except.ok r) :
    r.containerStyle.maxHeight = height ∧
    r.containerStyle.heightProp = none ∧
    r.containerStyle.overflow = "auto" ∧
    renderedHeight r ≤ height ∧
    VirtualizedItemList items = VirtualizedItemList items 600 := by
  obtain ⟨hrows, hstyle, hsome⟩ := VirtualizedItemList_ok_inv items height r h
  refine ⟨by rw [hstyle]; rfl, by rw [hstyle]; rfl, by rw [hstyle]; rfl, ?_, rfl⟩
  have hrh : renderedHeight r = min (contentHeight r.rows) height := by
    simp [renderedHeight, hstyle, containerStyleOf]
  rw [hrh]
  exact Nat.min_le_right _ _

/-- Witness for C1 (amended) at `items = [itemWidget]`, `height = 600`. -/
theorem C1_container_clipped_witness : renderedWidget.containerStyle.maxHeight = 600 :=
  (C1_container_clipped [itemWidget] 600 renderedWidget rfl).1

/-- C2: `VirtualizedItemList` materializes exactly one row per element of the
items array, whatever the container height: no window of rows is selected. -/
theorem C2_one_row_per_item (items : List Item) (height : Nat) (r : Rendered)
    (h : VirtualizedItemList items height = Except.ok r) :
    r.rows.length = items.length := by
  obtain ⟨hrows, _, _⟩ := VirtualizedItemList_ok_inv items height r h
  rw [hrows]
  exact rowsSpec_length _ _ _

/-- Witness for C2 at `items = [itemWidget]`, `height = 600`. -/
theorem C2_one_row_per_item_witness : renderedWidget.rows.length = [itemWidget].length :=
  C2_one_row_per_item [itemWidget] 600 renderedWidget rfl

/-- C3: every row rendered by `VirtualizedItemList` has the same constant
height of 70 pixels, independent of the item's content and position. -/
theorem C3_fixed_row_height (items : List Item) (height : Nat) (r : Rendered)
    (h : VirtualizedItemList items height = Except.ok r) :
    ∀ row ∈ r.rows, row.heightPx = 70 := by
  obtain ⟨hrows, _, _⟩ := VirtualizedItemList_ok_inv items height r h
  rw [hrows]
  exact rowsSpec_heightPx _ _ _

/-- Witness for C3 at the row rendered for `itemWidget`. -/
theorem C3_fixed_row_height_witness : rowWidget.heightPx = 70 :=
  C3_fixed_row_height [itemWidget] 600 renderedWidget rfl rowWidget (by decide)

/-- C4: rendering is faithful to the given data: row `i` displays exactly the
name, the category and the price of `items[i]`, in array order, with no
re-sorting, insertion or omission. -/
theorem C4_faithful_rows (items : List Item) (height : Nat) (r : Rendered)
    (h : VirtualizedItemList items height = Except.ok r) :
    r.rows.length = items.length ∧
    ∀ i it row, items.get? i = some it → r.rows.get? i = some row →
      row.nameText = it.name ∧ row.categoryText = it.category ∧
        some row.price = it.price := by
  obtain ⟨hrows, _, hsome⟩ := VirtualizedItemList_ok_inv items height r h
  refine ⟨by rw [hrows]; exact rowsSpec_length _ _ _, ?_⟩
  intro i it row hit hrow
  rw [hrows, rowsSpec_get?, hit] at hrow
  simp only [Option.map_some', Option.some.injEq] at hrow
  have hmem : it ∈ items := List.get?_mem hit
  obtain ⟨p, hp⟩ := Option.isSome_iff_exists.mp (hsome it hmem)
  subst hrow
  refine ⟨rfl, rfl, ?_⟩
  simp [rowSpec, hp]

/-- Witness for C4 at `items = [itemWidget]`, row 0. -/
theorem C4_faithful_rows_witness :
    rowWidget.nameText = itemWidget.name ∧ rowWidget.categoryText = itemWidget.category ∧
      some rowWidget.price = itemWidget.price :=
  (C4_faithful_rows [itemWidget] 600 renderedWidget rfl).2 0 itemWidget rowWidget rfl rfl

/-- C5: Query Engine pagination postcondition: the returned slice's length is
`min(limit, max(0, total - (page-1)*limit))` where `total` counts the filtered
items before pagination; an out-of-range page yields an empty slice with
`total` unchanged.  (Query Engine modelled from the spec; its backend code is
not in the repository sources.) -/
theorem C5_pagination_length (c : List Item) (p : QueryParams) (hp : 1 ≤ p.page) :
    ((queryEngine c p).items.length : Int) =
      min (p.limit : Int)
        (max 0 (((queryEngine c p).total : Int) - (((p.page - 1) * p.limit : Nat) : Int))) ∧
    (queryEngine c p).total = (filterItems p.search c).length ∧
    ((queryEngine c p).total ≤ (p.page - 1) * p.limit → (queryEngine c p).items = []) := by
  have hlen : (queryEngine c p).items.length =
      min p.limit ((filterItems p.search c).length - (p.page - 1) * p.limit) := by
    simp [queryEngine, List.length_take, List.length_drop]
  refine ⟨?_, rfl, ?_⟩
  · have h1 : ((queryEngine c p).items.length : Int) =
        min (p.limit : Int)
          (max 0 ((((filterItems p.search c).length : Nat) : Int) -
            (((p.page - 1) * p.limit : Nat) : Int))) := by
      rw [hlen]
      generalize (filterItems p.search c).length = L
      generalize (p.page - 1) * p.limit = s
      omega
    exact h1
  · intro hle
    show ((filterItems p.search c).drop ((p.page - 1) * p.limit)).take p.limit = []
    rw [List.drop_eq_nil_of_le hle]
    simp

/-- Witness for C5 at `c = [itemWidget]`, `page = 1`, `limit = 10`. -/
theorem C5_pagination_length_witness :
    ((queryEngine [itemWidget] ⟨none, 1, 10⟩).items.length : Int) =
      min ((10 : Nat) : Int)
        (max 0 (((queryEngine [itemWidget] ⟨none, 1, 10⟩).total : Int) -
          ((((1 - 1) * 10 : Nat) : Nat) : Int))) :=
  (C5_pagination_length [itemWidget] ⟨none, 1, 10⟩ (by decide)).1

/-- C6: for a search non-empty after trimming, filtering keeps exactly the
items whose name OR category contains the (trimmed) search text
case-insensitively — so "Tool" matches an item named "power tool" and one
categorized "Tools" — and an absent or blank search passes all items
unchanged.  (Query Engine modelled from the spec.) -/
theorem C6_filter_semantics :
    (∀ (s : String) (c : List Item) (it : Item), trimChars s ≠ [] →
      (it ∈ filterItems (some s) c ↔
        it ∈ c ∧ (containsCI it.name (trimChars s) ∨ containsCI it.category (trimChars s)))) ∧
    (∀ c : List Item, filterItems none c = c) ∧
    (∀ (s : String) (c : List Item), trimChars s = [] → filterItems (some s) c = c) ∧
    filterItems (some "Tool") [itemPower, itemDrill] = [itemPower, itemDrill] := by
  refine ⟨?_, ?_, ?_, by decide⟩
  · intro s c it hq
    have hq2 : (trimChars s).isEmpty = false := by
      rcases hcase : trimChars s with _ | ⟨a, t⟩
      · exact absurd hcase hq
      · rfl
    have hfil : filterItems (some s) c = c.filter (itemMatches (trimChars s)) := by
      simp [filterItems, hq2]
    rw [hfil, List.mem_filter, itemMatches_iff]
  · intro c
    rfl
  · intro s c hempty
    simp [filterItems, hempty]

/-- Witness for C6: the filter characterization instantiated at the
"power tool" item under the search "Tool". -/
theorem C6_filter_semantics_witness :
    itemPower ∈ filterItems (some "Tool") [itemPower, itemDrill] ↔
      itemPower ∈ [itemPower, itemDrill] ∧
        (containsCI itemPower.name (trimChars "Tool") ∨
          containsCI itemPower.category (trimChars "Tool")) :=
  C6_filter_semantics.1 "Tool" [itemPower, itemDrill] itemPower (by decide)

/-- C7: while the cache is `Valid` and the store file's modification timestamp
equals the recorded `observedTimestamp`, `getStats()` returns the cached value
and performs no storage read; two consecutive calls with no intervening file
change read storage at most once.  (Stats Cache modelled from the spec; its
backend code is not in the repository sources.) -/
theorem C7_stats_cache_fresh (store : Store) (st : CacheState) :
    (∀ v ts, st.cached = some (v, ts) → store.mtime = ts →
      getStats store st = ⟨v, st, 0⟩) ∧
    (getStats store st).listCalls + (getStats store (getStats store st).state).listCalls ≤ 1 := by
  obtain ⟨cached⟩ := st
  rcases cached with _ | ⟨v, ts⟩
  · refine ⟨?_, ?_⟩
    · intro v ts hcontra
      simp at hcontra
    · simp [getStats]
  · refine ⟨?_, ?_⟩
    · intro w ws hc hm
      have hvw : v = w ∧ ts = ws := by simpa using hc
      obtain ⟨rfl, rfl⟩ := hvw
      simp [getStats, hm]
    · by_cases hm : store.mtime = ts
      · simp [getStats, hm]
      · simp [getStats, hm]

/-- Witness for C7: a `Valid` cache whose recorded timestamp equals the file's
current timestamp is returned unchanged with zero storage reads. -/
theorem C7_stats_cache_fresh_witness :
    getStats ⟨[], 5⟩ ⟨some (⟨0, 0⟩, 5)⟩ = ⟨⟨0, 0⟩, ⟨some (⟨0, 0⟩, 5)⟩, 0⟩ :=
  (C7_stats_cache_fresh ⟨[], 5⟩ ⟨some (⟨0, 0⟩, 5)⟩).1 ⟨0, 0⟩ 5 rfl rfl

/-- C8: if every item's price is a number, rendering completes without
raising; the price cell calls `toLocaleString()` on `item.price`, so an input
holding an item with an absent/null price makes the render throw instead of
displaying a fallback. -/
theorem C8_price_totality :
    (∀ (items : List Item) (height : Nat), (∀ it ∈ items, it.price.isSome) →
      ∃ r, VirtualizedItemList items height = Except.ok r) ∧
    VirtualizedItemList [⟨2, "NoPrice", "Tools", none⟩] 600 =
      Except.error "TypeError: cannot read toLocaleString of undefined" := by
  refine ⟨?_, rfl⟩
  intro items height hall
  exact ⟨⟨containerStyleOf height, rowsSpec items.length 0 items⟩, by
    simp [VirtualizedItemList, renderRows_ok_of_isSome items.length 0 items hall]⟩

/-- Witness for C8 at the all-numeric array `[itemWidget]`. -/
theorem C8_price_totality_witness :
    ∃ r, VirtualizedItemList [itemWidget] 600 = Except.ok r :=
  C8_price_totality.1 [itemWidget] 600 (by decide)

/-- C9: the React key of each rendered row equals that item's `id`; hence
pairwise-distinct ids give pairwise-distinct row keys. -/
theorem C9_row_keys (items : List Item) (height : Nat) (r : Rendered)
    (h : VirtualizedItemList items height = Except.ok r) :
    r.rows.map Row.key = items.map Item.id ∧
    ((items.map Item.id).Nodup → (r.rows.map Row.key).Nodup) := by
  obtain ⟨hrows, _, _⟩ := VirtualizedItemList_ok_inv items height r h
  have hk : r.rows.map Row.key = items.map Item.id := by
    rw [hrows]; exact rowsSpec_keys _ _ _
  exact ⟨hk, fun hnd => hk ▸ hnd⟩

/-- Witness for C9 at `items = [itemWidget]`. -/
theorem C9_row_keys_witness : renderedWidget.rows.map Row.key = [itemWidget].map Item.id :=
  (C9_row_keys [itemWidget] 600 renderedWidget rfl).1

/-- C10: each rendered row links to that item's detail route: row `i` targets
exactly `'/items/' + items[i].id`. -/
theorem C10_row_links (items : List Item) (height : Nat) (r : Rendered)
    (h : VirtualizedItemList items height = Except.ok r) :
    ∀ i it row, items.get? i = some it → r.rows.get? i = some row →
      row.linkTo = "/items/" ++ toString it.id := by
  obtain ⟨hrows, _, _⟩ := VirtualizedItemList_ok_inv items height r h
  intro i it row hit hrow
  rw [hrows, rowsSpec_get?, hit] at hrow
  simp only [Option.map_some', Option.some.injEq] at hrow
  subst hrow
  rfl

/-- Witness for C10 at `items = [itemWidget]`, row 0. -/
theorem C10_row_links_witness : rowWidget.linkTo = "/items/" ++ toString itemWidget.id :=
  C10_row_links [itemWidget] 600 renderedWidget rfl 0 itemWidget rowWidget rfl rfl
